import Mathlib

/-! SPI transmit ring of `Mcu/h563/Src/spi.c`.

A shallow embedding of the DMA-driven transmit path of the H563 SPI driver:
the ring indices, the chunker `spi_start_tx_dma_transfer`, the completion
handler `spi_dma_transfer_complete_isr` and the producer `spi_write`.

Conventions of the embedding:

* `uint8_t` values (`_tx_head`, `_tx_tail`, `length`, the results of the
  `uint8_t` functions) are natural numbers; every place where C truncates to
  eight bits carries an explicit `% 256`.
* Hardware registers are 32-bit values kept in a register file; every
  statement of the source that writes a register also appends the statement
  to `hwlog`, so that the order of the hardware accesses can be stated.
* The backing store is seen through `mem`: `mem i` is the word at
  `_tx_buffer[i]`, while `_tx_buffer` itself is the address of slot 0.
-/

namespace AM32

/-! ## Hardware registers -/

/-- The registers written by the transmit path: those of the DMA channel
`spi->txDma->ref`, those of the peripheral `spi->ref`, and `SPI5->CR2`. -/
inductive Reg where
  | txDma_CCR
  | txDma_CBR1
  | txDma_CSAR
  | txDma_CFCR
  | ref_CR1
  | ref_IFCR
  | ref_TXDR
  | SPI5_CR2
  deriving DecidableEq, Repr

/-- One register-writing statement of the source: `R = v`, `R |= m` or
`R &= ~m`. -/
inductive HwOp where
  | assign (r : Reg) (v : Nat)
  | set_bits (r : Reg) (m : Nat)
  | clear_bits (r : Reg) (m : Nat)
  deriving DecidableEq, Repr

/-- Modelled from the spec: `DMA_CCR_EN` comes from the device header
`stm32h563xx.h`, which is not among the sources; it is the enable flag of the
DMA channel, one bit of `CCR` (bit 0 on this device). -/
def DMA_CCR_EN : Nat := 1

/-- Modelled from the spec: `DMA_CFCR_TCF` comes from the device header
`stm32h563xx.h`, which is not among the sources; it is the bit that clears the
transfer-complete flag of the DMA channel (bit 8 on this device). -/
def DMA_CFCR_TCF : Nat := 256

/-- Modelled from the spec: `SPI_CR1_SPE` comes from the device header
`stm32h563xx.h`, which is not among the sources; it is the peripheral enable
flag, one bit of `CR1` (bit 0 on this device). -/
def SPI_CR1_SPE : Nat := 1

/-- Modelled from the spec: `SPI_CR1_CSTART` comes from the device header
`stm32h563xx.h`, which is not among the sources; it is the start command of
the peripheral, one bit of `CR1` (bit 9 on this device). -/
def SPI_CR1_CSTART : Nat := 512

/-- Modelled from the spec: `SPI_IFCR_TXTFC` comes from the device header
`stm32h563xx.h`, which is not among the sources; it is the flag-clear bit
written to `IFCR` before a burst (bit 4 on this device). -/
def SPI_IFCR_TXTFC : Nat := 16

/-- The value of `~m` for a 32-bit mask `m`. -/
def not32 (m : Nat) : Nat := 4294967295 - m

/-- Effect of one register-writing statement on the register file. -/
def exec (op : HwOp) (regs : Reg → Nat) : Reg → Nat :=
  match op with
  | .assign r v => fun q => if q = r then v else regs q
  | .set_bits r m => fun q => if q = r then regs r ||| m else regs q
  | .clear_bits r m => fun q => if q = r then regs r &&& not32 m else regs q

/-! ## Driver state -/

/-- The fields of `spi_t` used by the transmit path, the contents of the
backing store, the register file and the record of register writes. -/
structure spi_t where
  /-- Address held by the pointer `_tx_buffer` (slot 0 of the store). -/
  _tx_buffer : Nat
  /-- Contents of the store: `mem i` is `_tx_buffer[i]`. -/
  mem : Nat → Nat
  _tx_buffer_size : Nat
  _tx_head : Nat
  _tx_tail : Nat
  _dma_transfer_count : Nat
  regs : Reg → Nat
  /-- Register-writing statements executed so far, oldest first. -/
  hwlog : List HwOp

/-- Execute one register-writing statement and record it. -/
def hw (op : HwOp) (s : spi_t) : spi_t :=
  { s with regs := exec op s.regs, hwlog := s.hwlog ++ [op] }

/-- `(uint32_t)(spi->_tx_buffer + i)`: the address of slot `i` of a store of
16-bit words. -/
def tx_slot_addr (s : spi_t) (i : Nat) : Nat :=
  (s._tx_buffer + 2 * i) % 4294967296

/-- `spi->txDma->ref->CCR & DMA_CCR_EN`, as a truth value. -/
def dma_enabled (s : spi_t) : Prop :=
  s.regs Reg.txDma_CCR &&& DMA_CCR_EN ≠ 0

instance (s : spi_t) : Decidable (dma_enabled s) := by
  unfold dma_enabled; infer_instance

/-! ## The functions of `spi.c` -/

/-- `spi_tx_waiting`: `_tx_head - _tx_tail` truncated to `uint8_t`. -/
def spi_tx_waiting (s : spi_t) : Nat :=
  (s._tx_head + 256 - s._tx_tail) % 256

/-- `spi_tx_dma_waiting`: the words waiting, or the words up to the end of the
store, each truncated to `uint8_t`. -/
def spi_tx_dma_waiting (s : spi_t) : Nat :=
  if s._tx_head ≥ s._tx_tail then
    (s._tx_head - s._tx_tail) % 256
  else
    (s._tx_buffer_size + 256 - s._tx_tail) % 256

/-- `spi_tx_available`: `255 - spi_tx_waiting(spi)`. -/
def spi_tx_available (s : spi_t) : Nat :=
  255 - spi_tx_waiting s

/-- `spi_enable`: `spi->ref->CR1 |= SPI_CR1_SPE`. -/
def spi_enable (s : spi_t) : spi_t :=
  hw (.set_bits .ref_CR1 SPI_CR1_SPE) s

/-- `spi_disable`: `spi->ref->CR1 &= ~SPI_CR1_SPE`. -/
def spi_disable (s : spi_t) : spi_t :=
  hw (.clear_bits .ref_CR1 SPI_CR1_SPE) s

/-- The body of `if (spi->_dma_transfer_count > 1) { ... }` in
`spi_start_tx_dma_transfer`: program and enable the DMA channel. -/
def dma_arm (s : spi_t) : spi_t :=
  let s1 := hw (.assign .txDma_CBR1 (s._dma_transfer_count - 1)) s
  let s2 := hw (.assign .txDma_CSAR (tx_slot_addr s1 s1._tx_tail)) s1
  hw (.set_bits .txDma_CCR DMA_CCR_EN) s2

/-- The statements of `spi_start_tx_dma_transfer` after the `if`: they run
whatever the transfer count is. -/
def spi_kick (s : spi_t) : spi_t :=
  let s1 := spi_disable s
  let s2 := hw (.set_bits .ref_IFCR SPI_IFCR_TXTFC) s1
  let s3 := hw (.assign .SPI5_CR2 s2._dma_transfer_count) s2
  let s4 := spi_enable s3
  let s5 := hw (.assign .ref_TXDR (tx_slot_addr s4 s4._tx_tail)) s4
  hw (.set_bits .ref_CR1 SPI_CR1_CSTART) s5

/-- `spi_start_tx_dma_transfer`. -/
def spi_start_tx_dma_transfer (s : spi_t) : spi_t :=
  if dma_enabled s then
    s
  else
    let s1 := { s with _dma_transfer_count := spi_tx_dma_waiting s }
    let s2 := if s1._dma_transfer_count > 1 then dma_arm s1 else s1
    spi_kick s2

/-- The first two statements of `spi_dma_transfer_complete_isr`: disable the
DMA channel, then `spi->_tx_tail += spi->_dma_transfer_count` on the 8-bit
tail. -/
def isr_retire (s : spi_t) : spi_t :=
  let s1 := hw (.clear_bits .txDma_CCR DMA_CCR_EN) s
  { s1 with _tx_tail := (s1._tx_tail + s1._dma_transfer_count) % 256 }

/-- `spi_dma_transfer_complete_isr`: retire, then call the chunker. -/
def spi_dma_transfer_complete_isr (s : spi_t) : spi_t :=
  spi_start_tx_dma_transfer (isr_retire s)

/-- `spi_dma_cb`: acknowledge the completion flag, then run the handler. -/
def spi_dma_cb (s : spi_t) : spi_t :=
  spi_dma_transfer_complete_isr (hw (.set_bits .txDma_CFCR DMA_CFCR_TCF) s)

/-- The copy loop of `spi_write`,
`for (i = 0; i < length; i++) _tx_buffer[_tx_head++] = data[i];`
with the number of iterations still to run as first argument and `i` as
second; `_tx_head++` wraps at eight bits. -/
def spi_write_loop (data : Nat → Nat) : Nat → Nat → spi_t → spi_t
  | 0, _, s => s
  | n + 1, i, s =>
    spi_write_loop data n (i + 1)
      { s with
        mem := fun j => if j = s._tx_head then data i else s.mem j
        _tx_head := (s._tx_head + 1) % 256 }

/-- `spi_write`. -/
def spi_write (s : spi_t) (data : Nat → Nat) (length : Nat) : spi_t :=
  if spi_tx_available s < length then
    s
  else
    spi_start_tx_dma_transfer (spi_write_loop data length 0 s)

/-- The value `spi_write` hands back to its caller: the function is declared
`void`, so the caller receives the same (empty) value from every call. -/
def spi_write_return (_s : spi_t) (_data : Nat → Nat) (_length : Nat) : Unit :=
  ()

/-- The slot indices the copy loop stores to, in order: the successive values
of `_tx_head` used in `_tx_buffer[_tx_head++] = data[i]`. The arguments are
those of `spi_write_loop`. -/
def spi_write_loop_slots (data : Nat → Nat) : Nat → Nat → spi_t → List Nat
  | 0, _, _ => []
  | n + 1, i, s =>
    s._tx_head ::
      spi_write_loop_slots data n (i + 1)
        { s with
          mem := fun j => if j = s._tx_head then data i else s.mem j
          _tx_head := (s._tx_head + 1) % 256 }

/-- The slot indices a call of `spi_write` stores to: none when the call is
rejected, those of the copy loop otherwise. -/
def spi_write_slots (s : spi_t) (data : Nat → Nat) (length : Nat) : List Nat :=
  if spi_tx_available s < length then [] else spi_write_loop_slots data length 0 s

/-! ## Reachable states -/

/-- States reachable from an empty idle ring over a 256-slot store: the
producer may call `spi_write` at any time with any `uint8_t` length, and a
completion event (the handler alone, or the DMA callback that runs it) can
occur only while the DMA channel is enabled. -/
inductive Reachable : spi_t → Prop where
  | init (s : spi_t) (hsize : s._tx_buffer_size = 256) (hh : s._tx_head < 256)
      (hempty : s._tx_head = s._tx_tail) (hidle : ¬ dma_enabled s) : Reachable s
  | write (s : spi_t) (data : Nat → Nat) (length : Nat) (hr : Reachable s)
      (hl : length < 256) : Reachable (spi_write s data length)
  | complete (s : spi_t) (hr : Reachable s) (hen : dma_enabled s) :
      Reachable (spi_dma_transfer_complete_isr s)
  | callback (s : spi_t) (hr : Reachable s) (hen : dma_enabled s) :
      Reachable (spi_dma_cb s)

/-- The invariant behind "tail never passes head": 8-bit indices over a
256-slot store, and a burst in flight commits no more than is queued. -/
def ring_inv (s : spi_t) : Prop :=
  s._tx_buffer_size = 256 ∧ s._tx_head < 256 ∧ s._tx_tail < 256 ∧
  (dma_enabled s → s._dma_transfer_count ≤ spi_tx_waiting s)

/-! ## The arming sequence as the specification words it -/

/-- The arming sequence in the order the specification lists it, for a burst
of `r` words at the current tail: disable the peripheral, clear the flag, set
the DMA source address and the DMA length `r - 1`, enable the DMA channel, set
the frame count to `r`, enable the peripheral, push the first word `w`,
issue the start command. -/
def arming_sequence_spec (s : spi_t) (r w : Nat) : List HwOp :=
  [ .clear_bits .ref_CR1 SPI_CR1_SPE,
    .set_bits .ref_IFCR SPI_IFCR_TXTFC,
    .assign .txDma_CSAR (tx_slot_addr s s._tx_tail),
    .assign .txDma_CBR1 (r - 1),
    .set_bits .txDma_CCR DMA_CCR_EN,
    .assign .SPI5_CR2 r,
    .set_bits .ref_CR1 SPI_CR1_SPE,
    .assign .ref_TXDR w,
    .set_bits .ref_CR1 SPI_CR1_CSTART ]

/-! ## Sample states -/

/-- An empty idle ring over a 256-slot store at address `0x20000000`, with
head and tail at `t`. -/
def idle_ring (t : Nat) : spi_t :=
  { _tx_buffer := 536870912
    mem := fun _ => 0
    _tx_buffer_size := 256
    _tx_head := t
    _tx_tail := t
    _dma_transfer_count := 0
    regs := fun _ => 0
    hwlog := [] }

/-- The words `0x1001, 0x1002, ...` used as sample data. -/
def sample_data (i : Nat) : Nat := 4097 + i

/-- A ring holding 255 queued words (head 255, tail 0): no room is left. -/
def full_ring : spi_t :=
  { idle_ring 0 with _tx_head := 255 }

/-- The ring after three words were written to an empty idle ring at slot 0:
a burst of three words is in flight. -/
def armed_ring : spi_t :=
  spi_write (idle_ring 0) sample_data 3

/-- Three words copied into an empty idle ring at slot 0, before the chunker
is called: the state in which `spi_write` invokes the chunker. -/
def queued_ring : spi_t :=
  spi_write_loop sample_data 3 0 (idle_ring 0)

/-- The state in which the completion handler of the three-word burst of
`armed_ring` calls the chunker: the ring is drained, the channel disabled. -/
def drained_ring : spi_t :=
  isr_retire armed_ring

/-- One word copied into an empty idle ring at slot 0, before the chunker is
called: the state in which a one-word `spi_write` invokes the chunker. -/
def single_ring : spi_t :=
  spi_write_loop sample_data 1 0 (idle_ring 0)

/-- An empty idle ring created over a store of 16 slots, head and tail at
slot 0. -/
def small_ring : spi_t :=
  { idle_ring 0 with _tx_buffer_size := 16 }

/-! ## Basic facts about the register file -/

theorem en_after_set (x : Nat) : (x ||| DMA_CCR_EN) &&& DMA_CCR_EN ≠ 0 := by
  unfold DMA_CCR_EN
  rw [Nat.and_one_is_mod]
  have h : (x ||| 1) % 2 = 1 := Nat.or_mod_two_eq_one.mpr (Or.inr rfl)
  omega

theorem en_after_clear (x : Nat) : (x &&& not32 DMA_CCR_EN) &&& DMA_CCR_EN = 0 := by
  unfold DMA_CCR_EN not32
  rw [Nat.land_assoc]
  have h : (4294967295 - 1) &&& 1 = 0 := by decide
  rw [h]; simp

@[simp] theorem hw_tx_buffer (op : HwOp) (s : spi_t) : (hw op s)._tx_buffer = s._tx_buffer := rfl

@[simp] theorem hw_mem (op : HwOp) (s : spi_t) : (hw op s).mem = s.mem := rfl

@[simp] theorem hw_tx_buffer_size (op : HwOp) (s : spi_t) :
    (hw op s)._tx_buffer_size = s._tx_buffer_size := rfl

@[simp] theorem hw_tx_head (op : HwOp) (s : spi_t) : (hw op s)._tx_head = s._tx_head := rfl

@[simp] theorem hw_tx_tail (op : HwOp) (s : spi_t) : (hw op s)._tx_tail = s._tx_tail := rfl

@[simp] theorem hw_dma_transfer_count (op : HwOp) (s : spi_t) :
    (hw op s)._dma_transfer_count = s._dma_transfer_count := rfl

@[simp] theorem hw_regs (op : HwOp) (s : spi_t) : (hw op s).regs = exec op s.regs := rfl

@[simp] theorem hw_hwlog (op : HwOp) (s : spi_t) : (hw op s).hwlog = s.hwlog ++ [op] := rfl

/-- The peripheral statements leave ring fields and transfer count alone. -/
theorem spi_kick_ring (s : spi_t) :
    (spi_kick s)._tx_buffer = s._tx_buffer ∧ (spi_kick s).mem = s.mem ∧
    (spi_kick s)._tx_buffer_size = s._tx_buffer_size ∧
    (spi_kick s)._tx_head = s._tx_head ∧ (spi_kick s)._tx_tail = s._tx_tail ∧
    (spi_kick s)._dma_transfer_count = s._dma_transfer_count := by
  simp [spi_kick, spi_enable, spi_disable]

/-- The peripheral statements leave the registers of the DMA channel alone. -/
theorem spi_kick_dma_regs (s : spi_t) :
    (spi_kick s).regs Reg.txDma_CCR = s.regs Reg.txDma_CCR ∧
    (spi_kick s).regs Reg.txDma_CBR1 = s.regs Reg.txDma_CBR1 ∧
    (spi_kick s).regs Reg.txDma_CSAR = s.regs Reg.txDma_CSAR ∧
    (spi_kick s).regs Reg.txDma_CFCR = s.regs Reg.txDma_CFCR := by
  simp [spi_kick, spi_enable, spi_disable, exec]

/-- The register-writing statements of the peripheral part, in order. -/
theorem spi_kick_hwlog (s : spi_t) :
    (spi_kick s).hwlog = s.hwlog ++
      [HwOp.clear_bits Reg.ref_CR1 SPI_CR1_SPE,
       HwOp.set_bits Reg.ref_IFCR SPI_IFCR_TXTFC,
       HwOp.assign Reg.SPI5_CR2 s._dma_transfer_count,
       HwOp.set_bits Reg.ref_CR1 SPI_CR1_SPE,
       HwOp.assign Reg.ref_TXDR (tx_slot_addr s s._tx_tail),
       HwOp.set_bits Reg.ref_CR1 SPI_CR1_CSTART] := by
  simp [spi_kick, spi_enable, spi_disable, tx_slot_addr]

theorem spi_kick_enabled (s : spi_t) : dma_enabled (spi_kick s) ↔ dma_enabled s := by
  unfold dma_enabled
  rw [(spi_kick_dma_regs s).1]

theorem dma_arm_ring (s : spi_t) :
    (dma_arm s)._tx_buffer = s._tx_buffer ∧ (dma_arm s).mem = s.mem ∧
    (dma_arm s)._tx_buffer_size = s._tx_buffer_size ∧
    (dma_arm s)._tx_head = s._tx_head ∧ (dma_arm s)._tx_tail = s._tx_tail ∧
    (dma_arm s)._dma_transfer_count = s._dma_transfer_count := by
  simp [dma_arm]

theorem dma_arm_regs (s : spi_t) :
    (dma_arm s).regs Reg.txDma_CCR = s.regs Reg.txDma_CCR ||| DMA_CCR_EN ∧
    (dma_arm s).regs Reg.txDma_CBR1 = s._dma_transfer_count - 1 ∧
    (dma_arm s).regs Reg.txDma_CSAR = tx_slot_addr s s._tx_tail := by
  simp [dma_arm, exec, tx_slot_addr]

theorem dma_arm_enabled (s : spi_t) : dma_enabled (dma_arm s) := by
  unfold dma_enabled
  rw [(dma_arm_regs s).1]
  exact en_after_set _

/-! ## The chunker -/

theorem start_busy (s : spi_t) (h : dma_enabled s) : spi_start_tx_dma_transfer s = s := by
  simp [spi_start_tx_dma_transfer, h]

theorem start_idle_arm (s : spi_t) (h : ¬ dma_enabled s) (hr : 1 < spi_tx_dma_waiting s) :
    spi_start_tx_dma_transfer s =
      spi_kick (dma_arm { s with _dma_transfer_count := spi_tx_dma_waiting s }) := by
  simp [spi_start_tx_dma_transfer, h, hr]

theorem start_idle_skip (s : spi_t) (h : ¬ dma_enabled s) (hr : ¬ 1 < spi_tx_dma_waiting s) :
    spi_start_tx_dma_transfer s =
      spi_kick { s with _dma_transfer_count := spi_tx_dma_waiting s } := by
  simp [spi_start_tx_dma_transfer, h, hr]

/-- The chunker never touches the ring: store address, contents, size, head
and tail are those of the state it was called in. -/
theorem start_ring (s : spi_t) :
    (spi_start_tx_dma_transfer s)._tx_buffer = s._tx_buffer ∧
    (spi_start_tx_dma_transfer s).mem = s.mem ∧
    (spi_start_tx_dma_transfer s)._tx_buffer_size = s._tx_buffer_size ∧
    (spi_start_tx_dma_transfer s)._tx_head = s._tx_head ∧
    (spi_start_tx_dma_transfer s)._tx_tail = s._tx_tail := by
  by_cases h : dma_enabled s
  · rw [start_busy s h]; exact ⟨rfl, rfl, rfl, rfl, rfl⟩
  · by_cases hr : 1 < spi_tx_dma_waiting s
    · rw [start_idle_arm s h hr]
      simp [spi_kick_ring, dma_arm_ring]
    · rw [start_idle_skip s h hr]
      simp [spi_kick_ring]

/-- Called on an idle channel, the chunker commits the run length. -/
theorem start_idle_count (s : spi_t) (h : ¬ dma_enabled s) :
    (spi_start_tx_dma_transfer s)._dma_transfer_count = spi_tx_dma_waiting s := by
  by_cases hr : 1 < spi_tx_dma_waiting s
  · rw [start_idle_arm s h hr]
    simp [spi_kick_ring, dma_arm_ring]
  · rw [start_idle_skip s h hr]
    simp [spi_kick_ring]

/-- Called on an idle channel, the chunker leaves the channel enabled exactly
when the run length exceeds one word. -/
theorem start_idle_enabled (s : spi_t) (h : ¬ dma_enabled s) :
    dma_enabled (spi_start_tx_dma_transfer s) ↔ 1 < spi_tx_dma_waiting s := by
  by_cases hr : 1 < spi_tx_dma_waiting s
  · rw [start_idle_arm s h hr, spi_kick_enabled]
    exact ⟨fun _ => hr, fun _ => dma_arm_enabled _⟩
  · rw [start_idle_skip s h hr, spi_kick_enabled]
    exact ⟨fun he => absurd he h, fun h1 => absurd h1 hr⟩

/-! ## The copy loop -/

theorem loop_frame (data : Nat → Nat) (n i : Nat) (s : spi_t) :
    (spi_write_loop data n i s)._tx_buffer = s._tx_buffer ∧
    (spi_write_loop data n i s)._tx_buffer_size = s._tx_buffer_size ∧
    (spi_write_loop data n i s)._tx_tail = s._tx_tail ∧
    (spi_write_loop data n i s)._dma_transfer_count = s._dma_transfer_count ∧
    (spi_write_loop data n i s).regs = s.regs ∧
    (spi_write_loop data n i s).hwlog = s.hwlog := by
  induction n generalizing i s with
  | zero => exact ⟨rfl, rfl, rfl, rfl, rfl, rfl⟩
  | succ n ih =>
    simp only [spi_write_loop]
    exact ih _ _

theorem loop_head (data : Nat → Nat) (n i : Nat) (s : spi_t) (hh : s._tx_head < 256) :
    (spi_write_loop data n i s)._tx_head = (s._tx_head + n) % 256 := by
  induction n generalizing i s with
  | zero => simp [spi_write_loop]; omega
  | succ n ih =>
    simp only [spi_write_loop]
    rw [ih]
    · simp only []; omega
    · exact Nat.mod_lt _ (by decide)

/-- Slots that the loop does not pass over keep their word. -/
theorem loop_mem_other (data : Nat → Nat) (n i : Nat) (s : spi_t) (j : Nat)
    (hh : s._tx_head < 256) (hj : ∀ k, k < n → j ≠ (s._tx_head + k) % 256) :
    (spi_write_loop data n i s).mem j = s.mem j := by
  induction n generalizing i s with
  | zero => rfl
  | succ n ih =>
    simp only [spi_write_loop]
    rw [ih]
    · have h0 := hj 0 (Nat.succ_pos n)
      have : j ≠ s._tx_head := by omega
      simp [this]
    · exact Nat.mod_lt _ (by decide)
    · intro k hk
      have h1 := hj (k + 1) (by omega)
      simp only []; omega

/-- The `k`-th slot after the old head receives `data[i + k]`. -/
theorem loop_mem_written (data : Nat → Nat) (n i : Nat) (s : spi_t) (k : Nat)
    (hh : s._tx_head < 256) (hn : n ≤ 256) (hk : k < n) :
    (spi_write_loop data n i s).mem ((s._tx_head + k) % 256) = data (i + k) := by
  induction n generalizing i s k with
  | zero => omega
  | succ n ih =>
    simp only [spi_write_loop]
    cases k with
    | zero =>
      rw [loop_mem_other]
      · simp; intro h; omega
      · exact Nat.mod_lt _ (by decide)
      · intro k hk; simp only []; omega
    | succ k =>
      have h := ih (i + 1)
        { s with
          mem := fun j => if j = s._tx_head then data i else s.mem j
          _tx_head := (s._tx_head + 1) % 256 } k
        (Nat.mod_lt _ (by decide)) (by omega) (by omega)
      have e : ((s._tx_head + 1) % 256 + k) % 256 = (s._tx_head + (k + 1)) % 256 := by omega
      simp only [] at h
      rw [e] at h
      rw [h]
      congr 1; omega

/-- Occupancy after the loop: with room for `n` more words, the loop raises
the number of waiting words by exactly `n`. -/
theorem loop_waiting (data : Nat → Nat) (n i : Nat) (s : spi_t)
    (hh : s._tx_head < 256) (ht : s._tx_tail < 256) (hn : n ≤ spi_tx_available s) :
    spi_tx_waiting (spi_write_loop data n i s) = spi_tx_waiting s + n := by
  unfold spi_tx_available at hn
  unfold spi_tx_waiting at hn ⊢
  rw [loop_head data n i s hh, (loop_frame data n i s).2.2.1]
  omega

/-- An accepted `spi_write` is the copy loop followed by the chunker. -/
theorem spi_write_accepted (s : spi_t) (data : Nat → Nat) (length : Nat)
    (hl : length ≤ spi_tx_available s) :
    spi_write s data length = spi_start_tx_dma_transfer (spi_write_loop data length 0 s) := by
  have h : ¬ spi_tx_available s < length := by omega
  simp [spi_write, h]

/-- A rejected `spi_write` returns the state it was given. -/
theorem spi_write_rejected (s : spi_t) (data : Nat → Nat) (length : Nat)
    (h : spi_tx_available s < length) : spi_write s data length = s := by
  simp [spi_write, h]

/-! ## Claims -/

/-- C1: a `spi_write` whose `length` exceeds `spi_tx_available` is a complete
no-op. The state returned is the state passed in, so the store contents, head,
tail, the committed transfer count and every register are as before, and no
register-writing statement ran (the record of writes is as before: the chunker
was not invoked). -/
theorem C1_spi_write_full_is_noop (s : spi_t) (data : Nat → Nat) (length : Nat)
    (h : spi_tx_available s < length) :
    spi_write s data length = s :=
  spi_write_rejected s data length h

theorem C1_spi_write_full_is_noop_witness :
    spi_tx_available full_ring < 1 ∧ spi_write full_ring sample_data 1 = full_ring :=
  ⟨by decide, C1_spi_write_full_is_noop full_ring sample_data 1 (by decide)⟩

/-- C2: with 8-bit head and tail, a `spi_write` of `length ≤ spi_tx_available`
words (zero included) stores `data[i]` in slot `(head + i) mod 256` for every
`i < length`, moves head to `(head + length) mod 256`, leaves tail alone, and
keeps the word of every queued slot `(tail + m) mod 256`, `m < occupancy`. -/
theorem C2_spi_write_copies (s : spi_t) (data : Nat → Nat) (length : Nat)
    (hh : s._tx_head < 256) (hl : length ≤ spi_tx_available s) :
    (∀ i, i < length →
      (spi_write s data length).mem ((s._tx_head + i) % 256) = data i) ∧
    (spi_write s data length)._tx_head = (s._tx_head + length) % 256 ∧
    (spi_write s data length)._tx_tail = s._tx_tail ∧
    (∀ m, m < spi_tx_waiting s →
      (spi_write s data length).mem ((s._tx_tail + m) % 256)
        = s.mem ((s._tx_tail + m) % 256)) := by
  have hav : spi_tx_available s ≤ 255 := by unfold spi_tx_available; omega
  rw [spi_write_accepted s data length hl]
  obtain ⟨_, hmem, _, hhead, htail⟩ :=
    start_ring (spi_write_loop data length 0 s)
  rw [hmem, hhead, htail]
  refine ⟨?_, loop_head data length 0 s hh, (loop_frame data length 0 s).2.2.1, ?_⟩
  · intro i hi
    have h := loop_mem_written data length 0 s i hh (by omega) hi
    simpa using h
  · intro m hm
    apply loop_mem_other data length 0 s _ hh
    intro k hk
    unfold spi_tx_available at hl
    unfold spi_tx_waiting at hl hm
    omega

theorem C2_spi_write_copies_witness :
    (∀ i, i < 60 →
      (spi_write (idle_ring 200) sample_data 60).mem (((idle_ring 200)._tx_head + i) % 256)
        = sample_data i) ∧
    (spi_write (idle_ring 200) sample_data 60)._tx_head
      = ((idle_ring 200)._tx_head + 60) % 256 ∧
    (spi_write (idle_ring 200) sample_data 60)._tx_tail = (idle_ring 200)._tx_tail ∧
    (∀ m, m < spi_tx_waiting (idle_ring 200) →
      (spi_write (idle_ring 200) sample_data 60).mem (((idle_ring 200)._tx_tail + m) % 256)
        = (idle_ring 200).mem (((idle_ring 200)._tx_tail + m) % 256)) :=
  C2_spi_write_copies (idle_ring 200) sample_data 60 (by decide) (by decide)

/-- A `spi_write` made while the channel is enabled keeps the channel enabled
and changes neither the committed count nor tail. -/
theorem spi_write_in_flight (s : spi_t) (data : Nat → Nat) (length : Nat)
    (hen : dma_enabled s) :
    dma_enabled (spi_write s data length) ∧
    (spi_write s data length)._dma_transfer_count = s._dma_transfer_count ∧
    (spi_write s data length)._tx_tail = s._tx_tail := by
  unfold spi_write
  split
  · exact ⟨hen, rfl, rfl⟩
  · obtain ⟨_, _, htail, hcount, hregs, _⟩ := loop_frame data length 0 s
    have hen2 : dma_enabled (spi_write_loop data length 0 s) := by
      unfold dma_enabled at hen ⊢
      rw [hregs]; exact hen
    rw [start_busy _ hen2]
    exact ⟨hen2, hcount, htail⟩

/-- Any sequence of `spi_write` calls made while the channel is enabled keeps
it enabled and changes neither the committed count nor tail. -/
theorem writes_in_flight (ws : List ((Nat → Nat) × Nat)) (s : spi_t)
    (hen : dma_enabled s) :
    dma_enabled (ws.foldl (fun st w => spi_write st w.1 w.2) s) ∧
    (ws.foldl (fun st w => spi_write st w.1 w.2) s)._dma_transfer_count
      = s._dma_transfer_count ∧
    (ws.foldl (fun st w => spi_write st w.1 w.2) s)._tx_tail = s._tx_tail := by
  induction ws generalizing s with
  | nil => exact ⟨hen, rfl, rfl⟩
  | cons w ws ih =>
    obtain ⟨h1, h2, h3⟩ := spi_write_in_flight s w.1 w.2 hen
    obtain ⟨k1, k2, k3⟩ := ih (spi_write s w.1 w.2) h1
    simp only [List.foldl_cons]
    exact ⟨k1, k2.trans h2, k3.trans h3⟩

/-- The completion handler moves tail by the committed count (eight-bit
wrap) and changes neither head nor the store contents. -/
theorem isr_ring (s : spi_t) :
    (spi_dma_transfer_complete_isr s)._tx_tail
      = (s._tx_tail + s._dma_transfer_count) % 256 ∧
    (spi_dma_transfer_complete_isr s)._tx_head = s._tx_head ∧
    (spi_dma_transfer_complete_isr s).mem = s.mem ∧
    (spi_dma_transfer_complete_isr s)._tx_buffer_size = s._tx_buffer_size ∧
    (spi_dma_transfer_complete_isr s)._tx_buffer = s._tx_buffer := by
  unfold spi_dma_transfer_complete_isr
  obtain ⟨h1, h2, h3, h4, h5⟩ := start_ring (isr_retire s)
  rw [h1, h2, h3, h4, h5]
  simp [isr_retire]

/-- C3: let a burst be in flight (channel enabled) with committed count `c`
and tail `t`. After any sequence of `spi_write` calls the channel is still
enabled, the committed count is still `c` and tail is still `t`; the next
completion event moves tail to exactly `(t + c) mod 256` and changes neither
head nor the store contents. -/
theorem C3_completion_retires_committed (s : spi_t) (ws : List ((Nat → Nat) × Nat))
    (hen : dma_enabled s) :
    dma_enabled (ws.foldl (fun st w => spi_write st w.1 w.2) s) ∧
    (ws.foldl (fun st w => spi_write st w.1 w.2) s)._dma_transfer_count
      = s._dma_transfer_count ∧
    (ws.foldl (fun st w => spi_write st w.1 w.2) s)._tx_tail = s._tx_tail ∧
    (spi_dma_transfer_complete_isr
        (ws.foldl (fun st w => spi_write st w.1 w.2) s))._tx_tail
      = (s._tx_tail + s._dma_transfer_count) % 256 ∧
    (spi_dma_transfer_complete_isr
        (ws.foldl (fun st w => spi_write st w.1 w.2) s))._tx_head
      = (ws.foldl (fun st w => spi_write st w.1 w.2) s)._tx_head ∧
    (spi_dma_transfer_complete_isr
        (ws.foldl (fun st w => spi_write st w.1 w.2) s)).mem
      = (ws.foldl (fun st w => spi_write st w.1 w.2) s).mem := by
  obtain ⟨h1, h2, h3⟩ := writes_in_flight ws s hen
  obtain ⟨k1, k2, k3, _, _⟩ :=
    isr_ring (ws.foldl (fun st w => spi_write st w.1 w.2) s)
  refine ⟨h1, h2, h3, ?_, k2, k3⟩
  rw [k1, h2, h3]

theorem C3_completion_retires_committed_witness :
    dma_enabled armed_ring ∧
    (spi_dma_transfer_complete_isr
        ([(sample_data, 5), (sample_data, 2)].foldl
          (fun st w => spi_write st w.1 w.2) armed_ring))._tx_tail
      = (armed_ring._tx_tail + armed_ring._dma_transfer_count) % 256 :=
  ⟨by decide,
   (C3_completion_retires_committed armed_ring [(sample_data, 5), (sample_data, 2)]
      (by decide)).2.2.2.1⟩

/-- Run length against occupancy and distance to the end of the store, for a
store of `N ≤ 256` slots with both indices inside it. -/
theorem dma_waiting_eq_min (s : spi_t) (hN : s._tx_buffer_size ≤ 256)
    (hh : s._tx_head < s._tx_buffer_size) (ht : s._tx_tail < s._tx_buffer_size) :
    spi_tx_dma_waiting s
      = min ((s._tx_head + s._tx_buffer_size - s._tx_tail) % s._tx_buffer_size)
          (s._tx_buffer_size - s._tx_tail) := by
  unfold spi_tx_dma_waiting
  by_cases hc : s._tx_head ≥ s._tx_tail
  · have e : s._tx_head + s._tx_buffer_size - s._tx_tail
        = (s._tx_head - s._tx_tail) + s._tx_buffer_size := by omega
    rw [if_pos hc, e, Nat.add_mod_right,
      Nat.mod_eq_of_lt (show s._tx_head - s._tx_tail < s._tx_buffer_size by omega)]
    omega
  · rw [if_neg hc,
      Nat.mod_eq_of_lt (show s._tx_head + s._tx_buffer_size - s._tx_tail
        < s._tx_buffer_size by omega)]
    omega

/-- C4: for a store of `N ≤ 256` slots and head, tail `< N`,
`spi_tx_dma_waiting` is `min(occupancy, N - tail)` with occupancy
`(head - tail) mod N`, so `tail + run ≤ N`; and when the chunker is called on
an idle channel the count it commits and writes to the frame-count register,
and the DMA length it programs when it arms, stay within the distance from
tail to the end of the store (on a busy channel it programs nothing). -/
theorem C4_run_never_wraps (s : spi_t) (hN : s._tx_buffer_size ≤ 256)
    (hh : s._tx_head < s._tx_buffer_size) (ht : s._tx_tail < s._tx_buffer_size) :
    spi_tx_dma_waiting s
      = min ((s._tx_head + s._tx_buffer_size - s._tx_tail) % s._tx_buffer_size)
          (s._tx_buffer_size - s._tx_tail) ∧
    s._tx_tail + spi_tx_dma_waiting s ≤ s._tx_buffer_size ∧
    (dma_enabled s → spi_start_tx_dma_transfer s = s) ∧
    (¬ dma_enabled s →
      (spi_start_tx_dma_transfer s)._dma_transfer_count = spi_tx_dma_waiting s ∧
      (spi_start_tx_dma_transfer s)._tx_tail
        + (spi_start_tx_dma_transfer s)._dma_transfer_count ≤ s._tx_buffer_size ∧
      (spi_start_tx_dma_transfer s).regs Reg.SPI5_CR2 = spi_tx_dma_waiting s ∧
      (1 < spi_tx_dma_waiting s →
        (spi_start_tx_dma_transfer s).regs Reg.txDma_CBR1 + 1 = spi_tx_dma_waiting s ∧
        (spi_start_tx_dma_transfer s).regs Reg.txDma_CSAR
          = tx_slot_addr s s._tx_tail)) := by
  have hmin := dma_waiting_eq_min s hN hh ht
  have hle : s._tx_tail + spi_tx_dma_waiting s ≤ s._tx_buffer_size := by
    rw [hmin]; omega
  refine ⟨hmin, hle, start_busy s, ?_⟩
  intro hidle
  have hc := start_idle_count s hidle
  refine ⟨hc, ?_, ?_, ?_⟩
  · rw [hc, (start_ring s).2.2.2.2]; exact hle
  · by_cases hr : 1 < spi_tx_dma_waiting s
    · rw [start_idle_arm s hidle hr]
      simp [spi_kick, spi_enable, spi_disable, exec, dma_arm]
    · rw [start_idle_skip s hidle hr]
      simp [spi_kick, spi_enable, spi_disable, exec]
  · intro hr
    rw [start_idle_arm s hidle hr, (spi_kick_dma_regs _).2.1, (spi_kick_dma_regs _).2.2.1,
      (dma_arm_regs _).2.1, (dma_arm_regs _).2.2]
    refine ⟨?_, rfl⟩
    simp only []
    omega

theorem C4_run_never_wraps_witness :
    spi_tx_dma_waiting (spi_write_loop sample_data 60 0 (idle_ring 200)) = 56 ∧
    (spi_write_loop sample_data 60 0 (idle_ring 200))._tx_tail
      + spi_tx_dma_waiting (spi_write_loop sample_data 60 0 (idle_ring 200)) ≤ 256 :=
  ⟨((C4_run_never_wraps (spi_write_loop sample_data 60 0 (idle_ring 200))
      (by decide) (by decide) (by decide)).1).trans (by decide),
   (C4_run_never_wraps (spi_write_loop sample_data 60 0 (idle_ring 200))
      (by decide) (by decide) (by decide)).2.1⟩

/-! ## The ring invariant -/

/-- The handler calls the chunker with the channel disabled. -/
theorem isr_retire_idle (s : spi_t) : ¬ dma_enabled (isr_retire s) := by
  intro hen
  unfold dma_enabled at hen
  apply hen
  simp only [isr_retire, hw_regs, exec, if_true]
  exact en_after_clear _


theorem dma_waiting_le_waiting (s : spi_t) (hsize : s._tx_buffer_size = 256)
    (hh : s._tx_head < 256) (ht : s._tx_tail < 256) :
    spi_tx_dma_waiting s ≤ spi_tx_waiting s := by
  unfold spi_tx_dma_waiting spi_tx_waiting
  split <;> omega

/-- The chunker establishes the invariant whenever the indices are in range:
what it commits on an idle channel is at most what is queued. -/
theorem start_inv (s : spi_t) (hsize : s._tx_buffer_size = 256)
    (hh : s._tx_head < 256) (ht : s._tx_tail < 256)
    (hc : dma_enabled s → s._dma_transfer_count ≤ spi_tx_waiting s) :
    ring_inv (spi_start_tx_dma_transfer s) := by
  by_cases hen : dma_enabled s
  · rw [start_busy s hen]; exact ⟨hsize, hh, ht, hc⟩
  · obtain ⟨_, _, h3, h4, h5⟩ := start_ring s
    refine ⟨by rw [h3]; exact hsize, by rw [h4]; exact hh, by rw [h5]; exact ht, ?_⟩
    intro _
    rw [start_idle_count s hen]
    have e : spi_tx_waiting (spi_start_tx_dma_transfer s) = spi_tx_waiting s := by
      unfold spi_tx_waiting; rw [h4, h5]
    rw [e]
    exact dma_waiting_le_waiting s hsize hh ht

theorem write_inv (s : spi_t) (data : Nat → Nat) (length : Nat) (h : ring_inv s) :
    ring_inv (spi_write s data length) := by
  obtain ⟨hsize, hh, ht, hc⟩ := h
  by_cases hl : length ≤ spi_tx_available s
  · rw [spi_write_accepted s data length hl]
    obtain ⟨_, f2, f3, f4, f5, _⟩ := loop_frame data length 0 s
    have hw := loop_waiting data length 0 s hh ht hl
    apply start_inv
    · rw [f2]; exact hsize
    · rw [loop_head data length 0 s hh]; exact Nat.mod_lt _ (by decide)
    · rw [f3]; exact ht
    · intro hen
      have hen0 : dma_enabled s := by
        unfold dma_enabled at hen ⊢
        rw [f5] at hen; exact hen
      have := hc hen0
      rw [f4, hw]; omega
  · rw [spi_write_rejected s data length (by omega)]
    exact ⟨hsize, hh, ht, hc⟩

theorem isr_inv (s : spi_t) (h : ring_inv s) :
    ring_inv (spi_dma_transfer_complete_isr s) := by
  obtain ⟨hsize, hh, _, _⟩ := h
  unfold spi_dma_transfer_complete_isr
  apply start_inv
  · exact hsize
  · exact hh
  · exact Nat.mod_lt _ (by decide)
  · intro hen
    exact absurd hen (isr_retire_idle s)

theorem cb_inv (s : spi_t) (h : ring_inv s) : ring_inv (spi_dma_cb s) := by
  obtain ⟨hsize, hh, ht, _⟩ := h
  unfold spi_dma_cb
  apply isr_inv
  refine ⟨hsize, hh, ht, ?_⟩
  intro hen
  have hen0 : dma_enabled s := by
    unfold dma_enabled at hen ⊢
    simpa [exec] using hen
  have e : spi_tx_waiting (hw (.set_bits .txDma_CFCR DMA_CFCR_TCF) s) = spi_tx_waiting s := rfl
  rw [e]
  exact (by assumption : dma_enabled s → _) hen0

theorem reachable_inv (s : spi_t) (h : Reachable s) : ring_inv s := by
  induction h with
  | init s hsize hh hempty hidle =>
    exact ⟨hsize, hh, by omega, fun hen => absurd hen hidle⟩
  | write s data length _ _ ih => exact write_inv s data length ih
  | complete s _ _ ih => exact isr_inv s ih
  | callback s _ _ ih => exact cb_inv s ih

/-- Retiring a committed count that is at most the occupancy lowers the
occupancy by exactly that count. -/
theorem isr_waiting (s : spi_t) (hh : s._tx_head < 256) (ht : s._tx_tail < 256)
    (hc : s._dma_transfer_count ≤ spi_tx_waiting s) :
    spi_tx_waiting (spi_dma_transfer_complete_isr s) + s._dma_transfer_count
      = spi_tx_waiting s := by
  obtain ⟨h1, h2, _⟩ := isr_ring s
  unfold spi_tx_waiting at hc ⊢
  rw [h1, h2]
  omega

/-- C5: in every state reachable from an empty idle ring over a 256-slot
store, tail never passes head. A burst in flight has committed at most the
current occupancy, so the completion event lowers the occupancy
`(head - tail) mod 256` by exactly the committed count without wrapping; the
occupancy never exceeds 255, and an accepted `spi_write` raises it by exactly
`length` to at most 255. -/
theorem C5_tail_never_passes_head (s : spi_t) (h : Reachable s) :
    (dma_enabled s → s._dma_transfer_count ≤ spi_tx_waiting s) ∧
    (dma_enabled s →
      spi_tx_waiting (spi_dma_transfer_complete_isr s) + s._dma_transfer_count
        = spi_tx_waiting s) ∧
    spi_tx_waiting s ≤ 255 ∧
    (∀ (data : Nat → Nat) (length : Nat), length ≤ spi_tx_available s →
      spi_tx_waiting (spi_write s data length) = spi_tx_waiting s + length ∧
      spi_tx_waiting (spi_write s data length) ≤ 255) := by
  obtain ⟨_, hh, ht, hc⟩ := reachable_inv s h
  refine ⟨hc, fun hen => isr_waiting s hh ht (hc hen), ?_, ?_⟩
  · unfold spi_tx_waiting; omega
  · intro data length hl
    have e : spi_tx_waiting (spi_write s data length) = spi_tx_waiting s + length := by
      rw [spi_write_accepted s data length hl]
      obtain ⟨_, _, _, h4, h5⟩ := start_ring (spi_write_loop data length 0 s)
      have hw := loop_waiting data length 0 s hh ht hl
      unfold spi_tx_waiting at hw ⊢
      rw [h4, h5]; exact hw
    refine ⟨e, ?_⟩
    unfold spi_tx_waiting; omega

theorem C5_tail_never_passes_head_witness :
    Reachable (spi_write (idle_ring 200) sample_data 60) ∧
    (dma_enabled (spi_write (idle_ring 200) sample_data 60) →
      (spi_write (idle_ring 200) sample_data 60)._dma_transfer_count
        ≤ spi_tx_waiting (spi_write (idle_ring 200) sample_data 60)) :=
  ⟨Reachable.write _ _ _ (Reachable.init _ rfl (by decide) rfl (by decide)) (by decide),
   (C5_tail_never_passes_head (spi_write (idle_ring 200) sample_data 60)
      (Reachable.write _ _ _ (Reachable.init _ rfl (by decide) rfl (by decide))
        (by decide))).1⟩

/-- C6 (evaluation of the code where it departs from the claim):
`queued_ring` holds the words `0x1001, 0x1002, 0x1003` in slots 0..2 of a
store at address `0x20000000`, tail is 0 and the channel is idle, so the
chunker arms a burst of run length 3. The value it writes to the data
register is the address of slot 0, not the word `0x1001` stored there, and the
DMA source address it programs is that same address of slot 0, not the address
of slot 1 where the remaining two words start. -/
theorem C6_arm_pushes_slot_address :
    ¬ dma_enabled queued_ring ∧
    queued_ring._tx_tail = 0 ∧
    spi_tx_dma_waiting queued_ring = 3 ∧
    queued_ring.mem 0 = 4097 ∧
    (spi_start_tx_dma_transfer queued_ring).mem 0 = 4097 ∧
    dma_enabled (spi_start_tx_dma_transfer queued_ring) ∧
    (spi_start_tx_dma_transfer queued_ring).regs Reg.ref_TXDR = 536870912 ∧
    (spi_start_tx_dma_transfer queued_ring).regs Reg.ref_TXDR
      ≠ queued_ring.mem queued_ring._tx_tail ∧
    (spi_start_tx_dma_transfer queued_ring).regs Reg.txDma_CBR1 = 2 ∧
    (spi_start_tx_dma_transfer queued_ring).regs Reg.txDma_CSAR
      = tx_slot_addr queued_ring queued_ring._tx_tail ∧
    (spi_start_tx_dma_transfer queued_ring).regs Reg.txDma_CSAR
      ≠ tx_slot_addr queued_ring (queued_ring._tx_tail + 1) := by
  decide

/-- C7: when the DMA channel is enabled, `spi_start_tx_dma_transfer` returns
the state it was given (ring, committed count, registers and the record of
register writes unchanged). So a `spi_write` made while a burst is in flight
is, when accepted, just the copy loop: registers, record of register writes,
committed count, tail, store address and size are unchanged, and the channel
is still enabled afterwards. -/
theorem C7_chunker_noop_when_busy (s : spi_t) (data : Nat → Nat) (length : Nat)
    (hen : dma_enabled s) :
    spi_start_tx_dma_transfer s = s ∧
    (length ≤ spi_tx_available s →
      spi_write s data length = spi_write_loop data length 0 s) ∧
    (spi_write s data length).regs = s.regs ∧
    (spi_write s data length).hwlog = s.hwlog ∧
    (spi_write s data length)._dma_transfer_count = s._dma_transfer_count ∧
    (spi_write s data length)._tx_tail = s._tx_tail ∧
    (spi_write s data length)._tx_buffer = s._tx_buffer ∧
    (spi_write s data length)._tx_buffer_size = s._tx_buffer_size ∧
    dma_enabled (spi_write s data length) := by
  obtain ⟨f1, f2, f3, f4, f5, f6⟩ := loop_frame data length 0 s
  have hen2 : dma_enabled (spi_write_loop data length 0 s) := by
    unfold dma_enabled at hen ⊢
    rw [f5]; exact hen
  have hw : spi_write s data length
      = if spi_tx_available s < length then s else spi_write_loop data length 0 s := by
    unfold spi_write
    rw [start_busy _ hen2]
  refine ⟨start_busy s hen, ?_, ?_⟩
  · intro hl
    rw [hw, if_neg (by omega)]
  · rw [hw]
    split
    · exact ⟨rfl, rfl, rfl, rfl, rfl, rfl, hen⟩
    · exact ⟨f5, f6, f4, f3, f1, f2, hen2⟩

theorem C7_chunker_noop_when_busy_witness :
    dma_enabled armed_ring ∧
    spi_start_tx_dma_transfer armed_ring = armed_ring ∧
    (spi_write armed_ring sample_data 5).hwlog = armed_ring.hwlog :=
  ⟨by decide,
   (C7_chunker_noop_when_busy armed_ring sample_data 5 (by decide)).1,
   (C7_chunker_noop_when_busy armed_ring sample_data 5 (by decide)).2.2.2.1⟩

/-- Run length seen by the chunker when the handler calls it. -/
theorem dma_waiting_retire (s : spi_t) :
    spi_tx_dma_waiting (isr_retire s)
      = if s._tx_head ≥ (s._tx_tail + s._dma_transfer_count) % 256 then
          (s._tx_head - (s._tx_tail + s._dma_transfer_count) % 256) % 256
        else
          (s._tx_buffer_size + 256 - (s._tx_tail + s._dma_transfer_count) % 256) % 256 := by
  simp [spi_tx_dma_waiting, isr_retire]

/-- What the completion handler commits and whether it leaves a burst in
flight. -/
theorem isr_rearm (s : spi_t) :
    (spi_dma_transfer_complete_isr s)._dma_transfer_count
      = spi_tx_dma_waiting (isr_retire s) ∧
    (dma_enabled (spi_dma_transfer_complete_isr s)
      ↔ 1 < spi_tx_dma_waiting (isr_retire s)) := by
  unfold spi_dma_transfer_complete_isr
  exact ⟨start_idle_count _ (isr_retire_idle s), start_idle_enabled _ (isr_retire_idle s)⟩

/-- C8: on a 256-slot store, from an empty idle ring with head = tail = `t`, a
single `spi_write` of `L ≤ 255` words that wraps (`t + L > 256`, both pieces
longer than one word) arms a first burst of committed length `256 - t`; its
completion event moves tail to 0 and arms a second burst of committed length
`t + L - 256`; after the second completion event tail equals head and the DMA
channel is disabled. -/
theorem C8_wrapping_write_two_bursts (s : spi_t) (data : Nat → Nat) (t L : Nat)
    (hsize : s._tx_buffer_size = 256) (hhead : s._tx_head = t) (htail : s._tx_tail = t)
    (hidle : ¬ dma_enabled s) (hL : L ≤ 255) (hwrap : t + L > 256)
    (h1 : 256 - t > 1) (h2 : t + L - 256 > 1) :
    (spi_write s data L)._dma_transfer_count = 256 - t ∧
    dma_enabled (spi_write s data L) ∧
    (spi_write s data L)._tx_tail = t ∧
    (spi_dma_transfer_complete_isr (spi_write s data L))._tx_tail = 0 ∧
    (spi_dma_transfer_complete_isr (spi_write s data L))._dma_transfer_count
      = t + L - 256 ∧
    dma_enabled (spi_dma_transfer_complete_isr (spi_write s data L)) ∧
    (spi_dma_transfer_complete_isr
        (spi_dma_transfer_complete_isr (spi_write s data L)))._tx_tail
      = (spi_dma_transfer_complete_isr
        (spi_dma_transfer_complete_isr (spi_write s data L)))._tx_head ∧
    ¬ dma_enabled (spi_dma_transfer_complete_isr
        (spi_dma_transfer_complete_isr (spi_write s data L))) := by
  have hav : L ≤ spi_tx_available s := by
    unfold spi_tx_available spi_tx_waiting
    rw [hhead, htail]; omega
  -- the state in which `spi_write` calls the chunker
  obtain ⟨_, f2, f3, _, f5, _⟩ := loop_frame data L 0 s
  have fh := loop_head data L 0 s (by omega)
  have lidle : ¬ dma_enabled (spi_write_loop data L 0 s) := by
    unfold dma_enabled at hidle ⊢
    rw [f5]; exact hidle
  have lrun : spi_tx_dma_waiting (spi_write_loop data L 0 s) = 256 - t := by
    unfold spi_tx_dma_waiting
    rw [fh, f2, f3, hhead, htail, hsize]
    split <;> omega
  -- the first burst
  have e1 := spi_write_accepted s data L hav
  obtain ⟨_, _, a3, a4, a5⟩ := start_ring (spi_write_loop data L 0 s)
  have c1 : (spi_write s data L)._dma_transfer_count = 256 - t := by
    rw [e1, start_idle_count _ lidle, lrun]
  have en1 : dma_enabled (spi_write s data L) := by
    rw [e1, start_idle_enabled _ lidle, lrun]; omega
  have t1 : (spi_write s data L)._tx_tail = t := by rw [e1, a5, f3, htail]
  have hd1 : (spi_write s data L)._tx_head = t + L - 256 := by
    rw [e1, a4, fh, hhead]; omega
  have sz1 : (spi_write s data L)._tx_buffer_size = 256 := by rw [e1, a3, f2, hsize]
  -- the first completion event
  obtain ⟨b1, b2, _, b4, _⟩ := isr_ring (spi_write s data L)
  obtain ⟨r1, r2⟩ := isr_rearm (spi_write s data L)
  have run2 : spi_tx_dma_waiting (isr_retire (spi_write s data L)) = t + L - 256 := by
    rw [dma_waiting_retire, hd1, t1, c1, sz1]
    split <;> omega
  have t2 : (spi_dma_transfer_complete_isr (spi_write s data L))._tx_tail = 0 := by
    rw [b1, t1, c1]; omega
  have c2 : (spi_dma_transfer_complete_isr (spi_write s data L))._dma_transfer_count
      = t + L - 256 := by rw [r1, run2]
  have en2 : dma_enabled (spi_dma_transfer_complete_isr (spi_write s data L)) := by
    rw [r2, run2]; omega
  -- the second completion event
  obtain ⟨d1, d2, _, d4, _⟩ := isr_ring (spi_dma_transfer_complete_isr (spi_write s data L))
  obtain ⟨_, q2⟩ := isr_rearm (spi_dma_transfer_complete_isr (spi_write s data L))
  have run3 : spi_tx_dma_waiting
      (isr_retire (spi_dma_transfer_complete_isr (spi_write s data L))) = 0 := by
    rw [dma_waiting_retire, b2, hd1, t2, c2, b4, sz1]
    split <;> omega
  refine ⟨c1, en1, t1, t2, c2, en2, ?_, ?_⟩
  · rw [d1, d2, t2, c2, b2, hd1]; omega
  · rw [q2, run3]; omega

theorem C8_wrapping_write_two_bursts_witness :
    (spi_write (idle_ring 200) sample_data 60)._dma_transfer_count = 256 - 200 ∧
    dma_enabled (spi_write (idle_ring 200) sample_data 60) ∧
    (spi_write (idle_ring 200) sample_data 60)._tx_tail = 200 ∧
    (spi_dma_transfer_complete_isr (spi_write (idle_ring 200) sample_data 60))._tx_tail
      = 0 ∧
    (spi_dma_transfer_complete_isr
        (spi_write (idle_ring 200) sample_data 60))._dma_transfer_count
      = 200 + 60 - 256 ∧
    dma_enabled (spi_dma_transfer_complete_isr (spi_write (idle_ring 200) sample_data 60)) ∧
    (spi_dma_transfer_complete_isr
        (spi_dma_transfer_complete_isr (spi_write (idle_ring 200) sample_data 60)))._tx_tail
      = (spi_dma_transfer_complete_isr
        (spi_dma_transfer_complete_isr
          (spi_write (idle_ring 200) sample_data 60)))._tx_head ∧
    ¬ dma_enabled (spi_dma_transfer_complete_isr
        (spi_dma_transfer_complete_isr (spi_write (idle_ring 200) sample_data 60))) :=
  C8_wrapping_write_two_bursts (idle_ring 200) sample_data 200 60
    rfl rfl rfl (by decide) (by decide) (by decide) (by decide) (by decide)

/-- The chunker called by the completion handler on a drained ring
(`drained_ring`: head = tail = 3, channel disabled, frame count register still
3): the run length is 0, the DMA descriptor and enable flag are left alone, and
the peripheral statements run with frame count 0. -/
theorem chunker_on_drained_ring :
    ¬ dma_enabled drained_ring ∧
    drained_ring._tx_head = 3 ∧ drained_ring._tx_tail = 3 ∧
    spi_tx_dma_waiting drained_ring = 0 ∧
    ¬ dma_enabled (spi_start_tx_dma_transfer drained_ring) ∧
    drained_ring.regs Reg.SPI5_CR2 = 3 ∧
    (spi_start_tx_dma_transfer drained_ring).regs Reg.SPI5_CR2 = 0 ∧
    (spi_start_tx_dma_transfer drained_ring).hwlog = drained_ring.hwlog ++
      [HwOp.clear_bits Reg.ref_CR1 SPI_CR1_SPE,
       HwOp.set_bits Reg.ref_IFCR SPI_IFCR_TXTFC,
       HwOp.assign Reg.SPI5_CR2 0,
       HwOp.set_bits Reg.ref_CR1 SPI_CR1_SPE,
       HwOp.assign Reg.ref_TXDR 536870918,
       HwOp.set_bits Reg.ref_CR1 SPI_CR1_CSTART] := by
  decide

/-- C9, as stated, fails on `single_ring` (one word queued at slot 0, channel
idle, frame count register 0): the run length is 1 and no DMA burst is armed,
yet the chunker changes the frame count register from 0 to 1, writes the data
register and issues the start command. -/
theorem C9_single_word_counterexample :
    ¬ dma_enabled single_ring ∧
    spi_tx_dma_waiting single_ring = 1 ∧
    ¬ dma_enabled (spi_start_tx_dma_transfer single_ring) ∧
    single_ring.regs Reg.SPI5_CR2 = 0 ∧
    (spi_start_tx_dma_transfer single_ring).regs Reg.SPI5_CR2 = 1 ∧
    single_ring.hwlog = [] ∧
    (spi_start_tx_dma_transfer single_ring).hwlog =
      [HwOp.clear_bits Reg.ref_CR1 SPI_CR1_SPE,
       HwOp.set_bits Reg.ref_IFCR SPI_IFCR_TXTFC,
       HwOp.assign Reg.SPI5_CR2 1,
       HwOp.set_bits Reg.ref_CR1 SPI_CR1_SPE,
       HwOp.assign Reg.ref_TXDR 536870912,
       HwOp.set_bits Reg.ref_CR1 SPI_CR1_CSTART] := by
  decide

/-- C9 (amended): whenever `spi_start_tx_dma_transfer` is invoked with no
burst in flight and the run length is not greater than one word, it arms no
DMA burst: the channel stays disabled, the DMA registers (control, length,
source address, flag clear) keep their values, the ring is untouched and the
committed count becomes the run length. With run length 1 the peripheral part
of the sequence still runs: peripheral disabled, flag cleared, frame count set
to 1, peripheral enabled, data register written, start command issued. -/
theorem C9_no_dma_burst_armed (s : spi_t) (hidle : ¬ dma_enabled s)
    (hr : spi_tx_dma_waiting s ≤ 1) :
    ¬ dma_enabled (spi_start_tx_dma_transfer s) ∧
    (spi_start_tx_dma_transfer s).regs Reg.txDma_CCR = s.regs Reg.txDma_CCR ∧
    (spi_start_tx_dma_transfer s).regs Reg.txDma_CBR1 = s.regs Reg.txDma_CBR1 ∧
    (spi_start_tx_dma_transfer s).regs Reg.txDma_CSAR = s.regs Reg.txDma_CSAR ∧
    (spi_start_tx_dma_transfer s).regs Reg.txDma_CFCR = s.regs Reg.txDma_CFCR ∧
    (spi_start_tx_dma_transfer s)._dma_transfer_count = spi_tx_dma_waiting s ∧
    (spi_start_tx_dma_transfer s)._tx_head = s._tx_head ∧
    (spi_start_tx_dma_transfer s)._tx_tail = s._tx_tail ∧
    (spi_start_tx_dma_transfer s).mem = s.mem ∧
    (spi_tx_dma_waiting s = 1 →
      ∃ v, (spi_start_tx_dma_transfer s).hwlog = s.hwlog ++
        [HwOp.clear_bits Reg.ref_CR1 SPI_CR1_SPE,
         HwOp.set_bits Reg.ref_IFCR SPI_IFCR_TXTFC,
         HwOp.assign Reg.SPI5_CR2 1,
         HwOp.set_bits Reg.ref_CR1 SPI_CR1_SPE,
         HwOp.assign Reg.ref_TXDR v,
         HwOp.set_bits Reg.ref_CR1 SPI_CR1_CSTART]) := by
  have hn : ¬ 1 < spi_tx_dma_waiting s := by omega
  have hen : ¬ dma_enabled (spi_start_tx_dma_transfer s) := by
    rw [start_idle_enabled s hidle]; exact hn
  obtain ⟨_, r2, _, r4, r5⟩ := start_ring s
  have e := start_idle_skip s hidle hn
  obtain ⟨k1, k2, k3, k4⟩ :=
    spi_kick_dma_regs { s with _dma_transfer_count := spi_tx_dma_waiting s }
  refine ⟨hen, ?_, ?_, ?_, ?_, start_idle_count s hidle, r4, r5, r2, ?_⟩
  · rw [e, k1]
  · rw [e, k2]
  · rw [e, k3]
  · rw [e, k4]
  · intro h1
    refine ⟨tx_slot_addr s s._tx_tail, ?_⟩
    rw [e, spi_kick_hwlog]
    simp [h1, tx_slot_addr]

theorem C9_no_dma_burst_armed_witness :
    ¬ dma_enabled single_ring ∧ spi_tx_dma_waiting single_ring ≤ 1 ∧
    ¬ dma_enabled (spi_start_tx_dma_transfer single_ring) ∧
    (spi_start_tx_dma_transfer single_ring)._dma_transfer_count
      = spi_tx_dma_waiting single_ring :=
  ⟨by decide, by decide,
   (C9_no_dma_burst_armed single_ring (by decide) (by decide)).1,
   (C9_no_dma_burst_armed single_ring (by decide) (by decide)).2.2.2.2.2.1⟩

/-- C10, as stated, fails on `queued_ring` (three words queued at slot 0,
channel idle, so a burst of run length 3 is armed): the register writes the
chunker performs are not the sequence the claim gives, whether the word pushed
is taken to be the queued word or the value the code writes; the DMA channel
is enabled before the peripheral is disabled, not after. -/
theorem C10_arming_order_counterexample :
    ¬ dma_enabled queued_ring ∧
    spi_tx_dma_waiting queued_ring = 3 ∧
    queued_ring.hwlog = [] ∧
    (spi_start_tx_dma_transfer queued_ring).hwlog
      ≠ arming_sequence_spec queued_ring 3 (queued_ring.mem queued_ring._tx_tail) ∧
    (spi_start_tx_dma_transfer queued_ring).hwlog
      ≠ arming_sequence_spec queued_ring 3
          ((spi_start_tx_dma_transfer queued_ring).regs Reg.ref_TXDR) ∧
    List.indexOf (HwOp.set_bits Reg.txDma_CCR DMA_CCR_EN)
        (spi_start_tx_dma_transfer queued_ring).hwlog
      < List.indexOf (HwOp.clear_bits Reg.ref_CR1 SPI_CR1_SPE)
        (spi_start_tx_dma_transfer queued_ring).hwlog := by
  decide

/-- C10 (amended): whenever `spi_start_tx_dma_transfer` arms a burst of run
length `r` (channel idle, `r > 1`), the register writes it performs are
exactly, in this order: set the DMA length to `r - 1`; set the DMA source
address to the address of the tail slot; enable the DMA channel; disable the
peripheral; clear the flag; set the frame count to `r`; enable the peripheral;
write the data register; issue the start command. So the frame count is
written while the peripheral is disabled, and the DMA channel is programmed
and enabled before the peripheral is disabled. -/
theorem C10_arming_order (s : spi_t) (hidle : ¬ dma_enabled s)
    (hr : 1 < spi_tx_dma_waiting s) :
    ∃ v, (spi_start_tx_dma_transfer s).hwlog = s.hwlog ++
      [HwOp.assign Reg.txDma_CBR1 (spi_tx_dma_waiting s - 1),
       HwOp.assign Reg.txDma_CSAR (tx_slot_addr s s._tx_tail),
       HwOp.set_bits Reg.txDma_CCR DMA_CCR_EN,
       HwOp.clear_bits Reg.ref_CR1 SPI_CR1_SPE,
       HwOp.set_bits Reg.ref_IFCR SPI_IFCR_TXTFC,
       HwOp.assign Reg.SPI5_CR2 (spi_tx_dma_waiting s),
       HwOp.set_bits Reg.ref_CR1 SPI_CR1_SPE,
       HwOp.assign Reg.ref_TXDR v,
       HwOp.set_bits Reg.ref_CR1 SPI_CR1_CSTART] := by
  refine ⟨tx_slot_addr s s._tx_tail, ?_⟩
  rw [start_idle_arm s hidle hr, spi_kick_hwlog]
  simp [dma_arm, tx_slot_addr]

theorem C10_arming_order_witness :
    ¬ dma_enabled queued_ring ∧ 1 < spi_tx_dma_waiting queued_ring ∧
    ∃ v, (spi_start_tx_dma_transfer queued_ring).hwlog = queued_ring.hwlog ++
      [HwOp.assign Reg.txDma_CBR1 (spi_tx_dma_waiting queued_ring - 1),
       HwOp.assign Reg.txDma_CSAR (tx_slot_addr queued_ring queued_ring._tx_tail),
       HwOp.set_bits Reg.txDma_CCR DMA_CCR_EN,
       HwOp.clear_bits Reg.ref_CR1 SPI_CR1_SPE,
       HwOp.set_bits Reg.ref_IFCR SPI_IFCR_TXTFC,
       HwOp.assign Reg.SPI5_CR2 (spi_tx_dma_waiting queued_ring),
       HwOp.set_bits Reg.ref_CR1 SPI_CR1_SPE,
       HwOp.assign Reg.ref_TXDR v,
       HwOp.set_bits Reg.ref_CR1 SPI_CR1_CSTART] :=
  ⟨by decide, by decide, C10_arming_order queued_ring (by decide) (by decide)⟩

/-- C11, as stated, fails on `small_ring`, the empty idle ring as created
over a store of `N = 16` slots: `spi_tx_available` is 255 and the occupancy
`(head - tail) mod N` is 0, so their sum is 255 and not `N - 1 = 15`. -/
theorem C11_available_small_store_counterexample :
    small_ring._tx_buffer_size = 16 ∧
    small_ring._tx_head = small_ring._tx_tail ∧
    ¬ dma_enabled small_ring ∧
    spi_tx_available small_ring = 255 ∧
    (small_ring._tx_head + small_ring._tx_buffer_size - small_ring._tx_tail)
      % small_ring._tx_buffer_size = 0 ∧
    spi_tx_available small_ring
      + (small_ring._tx_head + small_ring._tx_buffer_size - small_ring._tx_tail)
        % small_ring._tx_buffer_size
      ≠ small_ring._tx_buffer_size - 1 := by
  decide

/-- C11 (amended): for a ring created over a store of `N = 256` slots, in
every reachable state `spi_tx_available + occupancy = N - 1 = 255`, where
occupancy `= (head - tail) mod N` is the value of `spi_tx_waiting`; so
`spi_tx_available` is 255 minus the occupancy. -/
theorem C11_available_plus_occupancy (s : spi_t) (h : Reachable s) :
    s._tx_buffer_size = 256 ∧
    spi_tx_waiting s
      = (s._tx_head + s._tx_buffer_size - s._tx_tail) % s._tx_buffer_size ∧
    spi_tx_available s
      + (s._tx_head + s._tx_buffer_size - s._tx_tail) % s._tx_buffer_size
      = s._tx_buffer_size - 1 ∧
    spi_tx_available s = 255 - spi_tx_waiting s := by
  obtain ⟨hsize, _, _, _⟩ := reachable_inv s h
  unfold spi_tx_available spi_tx_waiting
  rw [hsize]
  refine ⟨rfl, rfl, ?_, rfl⟩
  omega

theorem C11_available_plus_occupancy_witness :
    Reachable (spi_write (idle_ring 0) sample_data 10) ∧
    spi_tx_available (spi_write (idle_ring 0) sample_data 10)
      + ((spi_write (idle_ring 0) sample_data 10)._tx_head
          + (spi_write (idle_ring 0) sample_data 10)._tx_buffer_size
          - (spi_write (idle_ring 0) sample_data 10)._tx_tail)
        % (spi_write (idle_ring 0) sample_data 10)._tx_buffer_size
      = (spi_write (idle_ring 0) sample_data 10)._tx_buffer_size - 1 :=
  ⟨Reachable.write _ _ _ (Reachable.init _ rfl (by decide) rfl (by decide)) (by decide),
   (C11_available_plus_occupancy (spi_write (idle_ring 0) sample_data 10)
      (Reachable.write _ _ _ (Reachable.init _ rfl (by decide) rfl (by decide))
        (by decide))).2.2.1⟩

/-- An accepted `spi_write` raises the occupancy by exactly `length`. -/
theorem write_waiting (s : spi_t) (data : Nat → Nat) (length : Nat)
    (hh : s._tx_head < 256) (ht : s._tx_tail < 256) (hl : length ≤ spi_tx_available s) :
    spi_tx_waiting (spi_write s data length) = spi_tx_waiting s + length := by
  rw [spi_write_accepted s data length hl]
  obtain ⟨_, _, _, h4, h5⟩ := start_ring (spi_write_loop data length 0 s)
  have hw := loop_waiting data length 0 s hh ht hl
  unfold spi_tx_waiting at hw ⊢
  rw [h4, h5]; exact hw

/-- Run length seen by the chunker when `spi_write` calls it. -/
theorem dma_waiting_loop (data : Nat → Nat) (n i : Nat) (s : spi_t) (hh : s._tx_head < 256) :
    spi_tx_dma_waiting (spi_write_loop data n i s)
      = if (s._tx_head + n) % 256 ≥ s._tx_tail then
          ((s._tx_head + n) % 256 - s._tx_tail) % 256
        else
          (s._tx_buffer_size + 256 - s._tx_tail) % 256 := by
  obtain ⟨_, f2, f3, _⟩ := loop_frame data n i s
  unfold spi_tx_dma_waiting
  rw [loop_head data n i s hh, f2, f3]

/-- What an accepted `spi_write` on an idle channel commits, and whether it
leaves a burst in flight. -/
theorem write_idle_arm (s : spi_t) (data : Nat → Nat) (length : Nat)
    (hidle : ¬ dma_enabled s) (hl : length ≤ spi_tx_available s) :
    (spi_write s data length)._dma_transfer_count
      = spi_tx_dma_waiting (spi_write_loop data length 0 s) ∧
    (dma_enabled (spi_write s data length)
      ↔ 1 < spi_tx_dma_waiting (spi_write_loop data length 0 s)) := by
  have lidle : ¬ dma_enabled (spi_write_loop data length 0 s) := by
    unfold dma_enabled at hidle ⊢
    rw [(loop_frame data length 0 s).2.2.2.2.1]; exact hidle
  rw [spi_write_accepted s data length hl]
  exact ⟨start_idle_count _ lidle, start_idle_enabled _ lidle⟩

/-- C12: on a 256-slot store, in every reachable state, an accepted
`spi_write` of `L` words lowers `spi_tx_available` by exactly `L`, and a
completion event (possible only with a burst in flight) raises it by exactly
the committed count. From an empty idle ring, writing `L` words with
`2 ≤ L ≤ 255` that do not wrap takes `spi_tx_available` from 255 to `255 - L`
and arms a burst committing `L`; its completion event brings
`spi_tx_available` back to 255. -/
theorem C12_available_accounting (s : spi_t) (h : Reachable s) :
    (∀ (data : Nat → Nat) (L : Nat), L ≤ spi_tx_available s →
      spi_tx_available (spi_write s data L) + L = spi_tx_available s) ∧
    (dma_enabled s →
      spi_tx_available (spi_dma_transfer_complete_isr s)
        = spi_tx_available s + s._dma_transfer_count) ∧
    (∀ (data : Nat → Nat) (L : Nat), s._tx_head = s._tx_tail → ¬ dma_enabled s →
      2 ≤ L → L ≤ 255 → s._tx_tail + L ≤ 256 →
      spi_tx_available s = 255 ∧
      spi_tx_available (spi_write s data L) = 255 - L ∧
      dma_enabled (spi_write s data L) ∧
      (spi_write s data L)._dma_transfer_count = L ∧
      spi_tx_available (spi_dma_transfer_complete_isr (spi_write s data L)) = 255) := by
  obtain ⟨hsize, hh, ht, hc⟩ := reachable_inv s h
  have hwle : spi_tx_waiting s ≤ 255 := by unfold spi_tx_waiting; omega
  refine ⟨?_, ?_, ?_⟩
  · intro data L hl
    have e := write_waiting s data L hh ht hl
    unfold spi_tx_available at hl ⊢
    omega
  · intro hen
    have e := isr_waiting s hh ht (hc hen)
    have := hc hen
    unfold spi_tx_available
    omega
  · intro data L hempty hidle h2 h255 hnowrap
    have hw0 : spi_tx_waiting s = 0 := by
      unfold spi_tx_waiting; rw [hempty]; omega
    have hav : spi_tx_available s = 255 := by unfold spi_tx_available; omega
    have hl : L ≤ spi_tx_available s := by omega
    have hw1 := write_waiting s data L hh ht hl
    obtain ⟨a1, a2⟩ := write_idle_arm s data L hidle hl
    have run : spi_tx_dma_waiting (spi_write_loop data L 0 s) = L := by
      rw [dma_waiting_loop data L 0 s hh, hsize, hempty]
      split <;> omega
    obtain ⟨_, whh, wht, _⟩ := write_inv s data L ⟨hsize, hh, ht, hc⟩
    have c1 : (spi_write s data L)._dma_transfer_count = L := by rw [a1, run]
    have e2 := isr_waiting (spi_write s data L) whh wht (by rw [c1, hw1]; omega)
    refine ⟨hav, ?_, ?_, c1, ?_⟩
    · unfold spi_tx_available; omega
    · rw [a2, run]; omega
    · unfold spi_tx_available; omega

theorem C12_available_accounting_witness :
    Reachable (idle_ring 0) ∧
    spi_tx_available (idle_ring 0) = 255 ∧
    spi_tx_available (spi_write (idle_ring 0) sample_data 10) = 245 ∧
    spi_tx_available
      (spi_dma_transfer_complete_isr (spi_write (idle_ring 0) sample_data 10)) = 255 :=
  ⟨Reachable.init _ rfl (by decide) rfl (by decide),
   ((C12_available_accounting (idle_ring 0)
      (Reachable.init _ rfl (by decide) rfl (by decide))).2.2
        sample_data 10 rfl (by decide) (by decide) (by decide) (by decide)).1,
   ((C12_available_accounting (idle_ring 0)
      (Reachable.init _ rfl (by decide) rfl (by decide))).2.2
        sample_data 10 rfl (by decide) (by decide) (by decide) (by decide)).2.1,
   ((C12_available_accounting (idle_ring 0)
      (Reachable.init _ rfl (by decide) rfl (by decide))).2.2
        sample_data 10 rfl (by decide) (by decide) (by decide) (by decide)).2.2.2.2⟩

/-- C13, as stated, fails: `spi_write` hands back nothing. The call on
`full_ring` with one word is dropped and the call on the empty ring with one
word is accepted, yet no test on the value handed back can tell the two
apart. -/
theorem C13_no_result_counterexample :
    spi_tx_available full_ring < 1 ∧
    1 ≤ spi_tx_available (idle_ring 0) ∧
    ¬ ∃ f : Unit → Bool,
        f (spi_write_return full_ring sample_data 1) = true ∧
        f (spi_write_return (idle_ring 0) sample_data 1) = false := by
  refine ⟨by decide, by decide, ?_⟩
  rintro ⟨f, h1, h2⟩
  have e : spi_write_return full_ring sample_data 1
      = spi_write_return (idle_ring 0) sample_data 1 := rfl
  rw [e, h2] at h1
  exact Bool.noConfusion h1

/-- C13 (amended): `spi_write` hands back no result. A call is dropped, the
state left as it was, exactly when `length > spi_tx_available` held on entry;
otherwise (length 0 included) it is accepted: the copy loop runs, the chunker
is invoked and head moves to `(head + length) mod 256`, which differs from the
old head whenever `length > 0`. A caller learns of a drop by comparing
`length` with `spi_tx_available` before the call. -/
theorem C13_drop_is_silent (s : spi_t) (data : Nat → Nat) (length : Nat)
    (hh : s._tx_head < 256) (hlen : length < 256) :
    (spi_tx_available s < length → spi_write s data length = s) ∧
    (¬ spi_tx_available s < length →
      spi_write s data length
        = spi_start_tx_dma_transfer (spi_write_loop data length 0 s) ∧
      (spi_write s data length)._tx_head = (s._tx_head + length) % 256 ∧
      (0 < length → (spi_write s data length)._tx_head ≠ s._tx_head)) := by
  refine ⟨spi_write_rejected s data length, ?_⟩
  intro hacc
  have hl : length ≤ spi_tx_available s := by omega
  have e := spi_write_accepted s data length hl
  have hd : (spi_write s data length)._tx_head = (s._tx_head + length) % 256 := by
    rw [e, (start_ring _).2.2.2.1, loop_head data length 0 s hh]
  refine ⟨e, hd, ?_⟩
  intro hpos
  rw [hd]; omega

theorem C13_drop_is_silent_witness :
    (idle_ring 0)._tx_head < 256 ∧ (1 : Nat) < 256 ∧
    (spi_tx_available full_ring < 1 → spi_write full_ring sample_data 1 = full_ring) ∧
    (¬ spi_tx_available (idle_ring 0) < 1 →
      (spi_write (idle_ring 0) sample_data 1)._tx_head
        = ((idle_ring 0)._tx_head + 1) % 256) :=
  ⟨by decide, by decide,
   (C13_drop_is_silent full_ring sample_data 1 (by decide) (by decide)).1,
   fun h => ((C13_drop_is_silent (idle_ring 0) sample_data 1 (by decide) (by decide)).2 h).2.1⟩

/-- When the chunker arms on an idle channel, the DMA length is the run length
less one and the DMA source is the address of the tail slot. -/
theorem start_idle_arm_regs (s : spi_t) (hidle : ¬ dma_enabled s)
    (hr : 1 < spi_tx_dma_waiting s) :
    (spi_start_tx_dma_transfer s).regs Reg.txDma_CBR1 = spi_tx_dma_waiting s - 1 ∧
    (spi_start_tx_dma_transfer s).regs Reg.txDma_CSAR = tx_slot_addr s s._tx_tail := by
  rw [start_idle_arm s hidle hr, (spi_kick_dma_regs _).2.1, (spi_kick_dma_regs _).2.2.1,
    (dma_arm_regs _).2.1, (dma_arm_regs _).2.2]
  exact ⟨rfl, rfl⟩

/-- C14: on a 256-slot store, from an empty idle ring with head = tail = `t`,
a `spi_write` of one word leaves the DMA channel disabled, tail at `t`,
occupancy 1 and the word in slot `t`. A following accepted `spi_write` of
`k ≥ 1` words with `t + 1 + k ≤ 256` arms one burst with committed count
`k + 1` whose DMA source is the address of slot `t`, the earlier word still
in that slot; the next completion event moves tail by `k + 1`, up to head. -/
theorem C14_single_word_deferred (s : spi_t) (d1 d2 : Nat → Nat) (t k : Nat)
    (hsize : s._tx_buffer_size = 256) (hhead : s._tx_head = t) (htail : s._tx_tail = t)
    (hidle : ¬ dma_enabled s) (hk : 1 ≤ k) (hnowrap : t + 1 + k ≤ 256)
    (hacc : k ≤ spi_tx_available (spi_write s d1 1)) :
    ¬ dma_enabled (spi_write s d1 1) ∧
    (spi_write s d1 1)._tx_tail = t ∧
    spi_tx_waiting (spi_write s d1 1) = 1 ∧
    (spi_write s d1 1).mem t = d1 0 ∧
    dma_enabled (spi_write (spi_write s d1 1) d2 k) ∧
    (spi_write (spi_write s d1 1) d2 k)._dma_transfer_count = k + 1 ∧
    (spi_write (spi_write s d1 1) d2 k).regs Reg.txDma_CBR1 = k ∧
    (spi_write (spi_write s d1 1) d2 k).regs Reg.txDma_CSAR = tx_slot_addr s t ∧
    (spi_write (spi_write s d1 1) d2 k)._tx_tail = t ∧
    (spi_write (spi_write s d1 1) d2 k).mem t = d1 0 ∧
    (spi_dma_transfer_complete_isr (spi_write (spi_write s d1 1) d2 k))._tx_tail
      = (t + (k + 1)) % 256 ∧
    (spi_dma_transfer_complete_isr (spi_write (spi_write s d1 1) d2 k))._tx_tail
      = (spi_dma_transfer_complete_isr (spi_write (spi_write s d1 1) d2 k))._tx_head := by
  have hh : s._tx_head < 256 := by omega
  have ht : s._tx_tail < 256 := by omega
  have hw0 : spi_tx_waiting s = 0 := by
    unfold spi_tx_waiting; rw [hhead, htail]; omega
  have hl1 : 1 ≤ spi_tx_available s := by unfold spi_tx_available; omega
  -- the first write
  have e1 := spi_write_accepted s d1 1 hl1
  obtain ⟨a1, a2⟩ := write_idle_arm s d1 1 hidle hl1
  have run1 : spi_tx_dma_waiting (spi_write_loop d1 1 0 s) = 1 := by
    rw [dma_waiting_loop d1 1 0 s hh, hsize, hhead, htail]
    split <;> omega
  obtain ⟨g1, g2, g3, g4, g5⟩ := start_ring (spi_write_loop d1 1 0 s)
  obtain ⟨f1, f2, f3, _⟩ := loop_frame d1 1 0 s
  have idle1 : ¬ dma_enabled (spi_write s d1 1) := by rw [a2, run1]; omega
  have t1 : (spi_write s d1 1)._tx_tail = t := by rw [e1, g5, f3, htail]
  have hd1 : (spi_write s d1 1)._tx_head = t + 1 := by
    rw [e1, g4, loop_head d1 1 0 s hh, hhead]; omega
  have sz1 : (spi_write s d1 1)._tx_buffer_size = 256 := by rw [e1, g3, f2, hsize]
  have b1 : (spi_write s d1 1)._tx_buffer = s._tx_buffer := by rw [e1, g1, f1]
  have w1 : spi_tx_waiting (spi_write s d1 1) = 1 := by
    rw [write_waiting s d1 1 hh ht hl1, hw0]
  have m1 : (spi_write s d1 1).mem t = d1 0 := by
    have hm := loop_mem_written d1 1 0 s 0 hh (by omega) (by omega)
    rw [e1, g2]
    have et : (s._tx_head + 0) % 256 = t := by rw [hhead]; omega
    rw [et] at hm
    simpa using hm
  -- the second write
  have e2 := spi_write_accepted (spi_write s d1 1) d2 k hacc
  obtain ⟨c1, c2⟩ := write_idle_arm (spi_write s d1 1) d2 k idle1 hacc
  have run2 : spi_tx_dma_waiting (spi_write_loop d2 k 0 (spi_write s d1 1)) = k + 1 := by
    rw [dma_waiting_loop d2 k 0 _ (by omega), sz1, hd1, t1]
    unfold spi_tx_available at hacc
    split <;> omega
  have lidle2 : ¬ dma_enabled (spi_write_loop d2 k 0 (spi_write s d1 1)) := by
    unfold dma_enabled at idle1 ⊢
    rw [(loop_frame d2 k 0 _).2.2.2.2.1]; exact idle1
  obtain ⟨_, j2, _, j4, j5⟩ := start_ring (spi_write_loop d2 k 0 (spi_write s d1 1))
  obtain ⟨i1, _, i3, _⟩ := loop_frame d2 k 0 (spi_write s d1 1)
  obtain ⟨q1, q2⟩ := start_idle_arm_regs _ lidle2 (by rw [run2]; omega)
  have cnt2 : (spi_write (spi_write s d1 1) d2 k)._dma_transfer_count = k + 1 := by
    rw [c1, run2]
  have t2 : (spi_write (spi_write s d1 1) d2 k)._tx_tail = t := by rw [e2, j5, i3, t1]
  have hd2 : (spi_write (spi_write s d1 1) d2 k)._tx_head = (t + 1 + k) % 256 := by
    rw [e2, j4, loop_head d2 k 0 _ (by omega), hd1]
  obtain ⟨r1, r2, _⟩ := isr_ring (spi_write (spi_write s d1 1) d2 k)
  refine ⟨idle1, t1, w1, m1, ?_, cnt2, ?_, ?_, t2, ?_, ?_, ?_⟩
  · rw [c2, run2]; omega
  · rw [e2, q1, run2]; omega
  · rw [e2, q2, i3, t1]
    unfold tx_slot_addr
    rw [i1, b1]
  · rw [e2, j2, loop_mem_other d2 k 0 _ t (by omega), m1]
    intro j hj
    rw [hd1]; omega
  · rw [r1, t2, cnt2]
  · rw [r1, r2, t2, cnt2, hd2]
    congr 1; omega

theorem C14_single_word_deferred_witness :
    ¬ dma_enabled (spi_write (idle_ring 5) sample_data 1) ∧
    spi_tx_waiting (spi_write (idle_ring 5) sample_data 1) = 1 ∧
    dma_enabled (spi_write (spi_write (idle_ring 5) sample_data 1) sample_data 4) ∧
    (spi_write (spi_write (idle_ring 5) sample_data 1) sample_data 4)._dma_transfer_count
      = 4 + 1 ∧
    (spi_write (spi_write (idle_ring 5) sample_data 1) sample_data 4).regs Reg.txDma_CSAR
      = tx_slot_addr (idle_ring 5) 5 :=
  ⟨(C14_single_word_deferred (idle_ring 5) sample_data sample_data 5 4
      rfl rfl rfl (by decide) (by decide) (by decide) (by decide)).1,
   (C14_single_word_deferred (idle_ring 5) sample_data sample_data 5 4
      rfl rfl rfl (by decide) (by decide) (by decide) (by decide)).2.2.1,
   (C14_single_word_deferred (idle_ring 5) sample_data sample_data 5 4
      rfl rfl rfl (by decide) (by decide) (by decide) (by decide)).2.2.2.2.1,
   (C14_single_word_deferred (idle_ring 5) sample_data sample_data 5 4
      rfl rfl rfl (by decide) (by decide) (by decide) (by decide)).2.2.2.2.2.1,
   (C14_single_word_deferred (idle_ring 5) sample_data sample_data 5 4
      rfl rfl rfl (by decide) (by decide) (by decide) (by decide)).2.2.2.2.2.2.2.1⟩

/-- The copy loop changes the store only at the slots listed by
`spi_write_loop_slots`. -/
theorem loop_mem_outside_slots (data : Nat → Nat) (n i : Nat) (s : spi_t) (j : Nat)
    (hj : j ∉ spi_write_loop_slots data n i s) :
    (spi_write_loop data n i s).mem j = s.mem j := by
  induction n generalizing i s with
  | zero => rfl
  | succ n ih =>
    simp only [spi_write_loop_slots, List.mem_cons, not_or] at hj
    simp only [spi_write_loop]
    rw [ih _ _ hj.2]
    simp [hj.1]

/-- With an 8-bit head, every slot index the copy loop stores to is below
256. -/
theorem loop_slots_lt (data : Nat → Nat) (n i : Nat) (s : spi_t) (hh : s._tx_head < 256) :
    ∀ j, j ∈ spi_write_loop_slots data n i s → j < 256 := by
  induction n generalizing i s with
  | zero => intro j hj; simp [spi_write_loop_slots] at hj
  | succ n ih =>
    intro j hj
    simp only [spi_write_loop_slots, List.mem_cons] at hj
    rcases hj with hj | hj
    · omega
    · exact ih _ _ (Nat.mod_lt _ (by decide)) j hj

/-- C15, as stated, fails on `small_ring` (store of `N = 16` slots, head =
tail = 0, both below `N`): a `spi_write` of 20 words is accepted, stores to
the slot indices 0..19, of which 16..19 lie outside the store, and returns
with head = 20, not below `N`. -/
theorem C15_small_store_counterexample :
    small_ring._tx_buffer_size = 16 ∧
    small_ring._tx_head < small_ring._tx_buffer_size ∧
    small_ring._tx_tail < small_ring._tx_buffer_size ∧
    20 ≤ spi_tx_available small_ring ∧
    spi_write_slots small_ring sample_data 20 = List.range 20 ∧
    16 ∈ spi_write_slots small_ring sample_data 20 ∧
    (spi_write small_ring sample_data 20).mem 16 = sample_data 16 ∧
    (spi_write small_ring sample_data 20)._tx_head = 20 ∧
    ¬ (spi_write small_ring sample_data 20)._tx_head < small_ring._tx_buffer_size := by
  decide

/-- C15 (amended): for a store of `N = 256` slots and every state with
head, tail `< N`, every slot index that a `spi_write` stores to is `< N`, the
store is changed at no other slot, and head is again `< N` when the call
returns. -/
theorem C15_writes_stay_in_store (s : spi_t) (data : Nat → Nat) (length : Nat)
    (hsize : s._tx_buffer_size = 256)
    (hh : s._tx_head < s._tx_buffer_size) (ht : s._tx_tail < s._tx_buffer_size) :
    (∀ j, j ∈ spi_write_slots s data length → j < s._tx_buffer_size) ∧
    (∀ j, j ∉ spi_write_slots s data length → (spi_write s data length).mem j = s.mem j) ∧
    (spi_write s data length)._tx_head < s._tx_buffer_size ∧
    (spi_write s data length)._tx_tail < s._tx_buffer_size := by
  rw [hsize] at hh ht ⊢
  by_cases hrej : spi_tx_available s < length
  · rw [spi_write_rejected s data length hrej]
    refine ⟨?_, fun _ _ => rfl, hh, ht⟩
    intro j hj
    simp [spi_write_slots, hrej] at hj
  · have hl : length ≤ spi_tx_available s := by omega
    obtain ⟨_, g2, _, g4, g5⟩ := start_ring (spi_write_loop data length 0 s)
    rw [spi_write_accepted s data length hl, g2, g4, g5]
    refine ⟨?_, ?_, ?_, ?_⟩
    · intro j hj
      simp only [spi_write_slots, if_neg hrej] at hj
      exact loop_slots_lt data length 0 s hh j hj
    · intro j hj
      simp only [spi_write_slots, if_neg hrej] at hj
      exact loop_mem_outside_slots data length 0 s j hj
    · rw [loop_head data length 0 s hh]; exact Nat.mod_lt _ (by decide)
    · rw [(loop_frame data length 0 s).2.2.1]; exact ht

theorem C15_writes_stay_in_store_witness :
    (idle_ring 200)._tx_buffer_size = 256 ∧
    (∀ j, j ∈ spi_write_slots (idle_ring 200) sample_data 60 →
      j < (idle_ring 200)._tx_buffer_size) ∧
    (spi_write (idle_ring 200) sample_data 60)._tx_head
      < (idle_ring 200)._tx_buffer_size :=
  ⟨rfl,
   (C15_writes_stay_in_store (idle_ring 200) sample_data 60
      rfl (by decide) (by decide)).1,
   (C15_writes_stay_in_store (idle_ring 200) sample_data 60
      rfl (by decide) (by decide)).2.2.1⟩

end AM32
